import Mathlib

/-!
Verification of the newrelic-diagnostics-cli core: a shallow embedding of the
task result pipeline (output package), the attach/upload path, and three leaf
tasks (Base/Env/InitSystem, Base/Config/AppName, DotNet/Config/Agent), with
theorems settling the claims of the specification about them.
-/

set_option maxRecDepth 4096

namespace NrDiag

/-- tasks.Status, in the declaration order of the source (`None` first). -/
inductive Status where
  | none_
  | success
  | warning
  | failure
  | error
  | info
deriving DecidableEq, Repr

/-! ## Artifact Collector (output package, ProcessFilesChannel) -/

/-- tasks.FileCopyEnvelope: `hasStream` models `Stream != nil`; `name` is the
base file name that `StoreName` perturbs with the duplicate count. -/
structure FileCopyEnvelope where
  path : String
  hasStream : Bool
  identifier : String
  name : String
  dupCount : Nat
deriving DecidableEq, Repr

/-- Modelled from the spec: tasks.FileCopyEnvelope.StoreName is not under src/;
per the spec it derives the in-archive name from the base name, appending a
numeric suffix once the duplicate count is nonzero. -/
def FileCopyEnvelope.storeName (e : FileCopyEnvelope) : String :=
  if e.dupCount = 0 then e.name else e.name ++ "(" ++ toString e.dupCount ++ ")"

/-- The mutable state of the collector inside ProcessFilesChannel: the set of
in-archive names taken, the set of source paths accepted, and the accepted
envelopes in arrival order. -/
structure CollectorState where
  fileList : List String
  pathList : List String
  taskFiles : List FileCopyEnvelope
deriving DecidableEq, Repr

/-- The name-deduplication loop `for i := 1; i < 50` of ProcessFilesChannel:
`fuel` is the number of remaining iterations (49 at entry). On a name
collision the duplicate count is incremented and the loop retries; running
out of fuel drops the envelope. -/
def nameLoop (taskId : String) (st : CollectorState) : Nat → FileCopyEnvelope → CollectorState
  | 0, _ => st
  | fuel + 1, e =>
    if e.storeName ∈ st.fileList then
      nameLoop taskId st fuel { e with dupCount := e.dupCount + 1 }
    else
      { fileList := st.fileList ++ [e.storeName]
        pathList := st.pathList ++ [e.path]
        taskFiles := st.taskFiles ++
          [if e.identifier = "" then { e with identifier := taskId } else e] }

/-- One envelope of the inner loop of ProcessFilesChannel: existence check for
path-backed envelopes, executability check (`isExec` models
envelope.IsExecutable(), which is not under src/), path de-duplication for
path-backed envelopes, then the name-deduplication loop with 49 iterations. -/
def processEnvelope (fileExists : String → Bool) (isExec : FileCopyEnvelope → Except Unit Bool)
    (taskId : String) (st : CollectorState) (e : FileCopyEnvelope) : CollectorState :=
  if e.hasStream = false ∧ fileExists e.path = false then st
  else
    match isExec e with
    | .error _ => st
    | .ok true => st
    | .ok false =>
      if e.hasStream = false ∧ e.path ∈ st.pathList then st
      else nameLoop taskId st 49 e

/-- ProcessFilesChannel: drains the files channel (a list of task results,
each a task identifier with its FilesToCopy envelopes) and returns the final
collector state. -/
def ProcessFilesChannel (fileExists : String → Bool) (isExec : FileCopyEnvelope → Except Unit Bool)
    (results : List (String × List FileCopyEnvelope)) : CollectorState :=
  results.foldl (fun st r => r.2.foldl (processEnvelope fileExists isExec r.1) st) ⟨[], [], []⟩

/-- The scenario input of the spec: sixty envelopes carrying the same logical
name (stream-backed, so path de-duplication does not interfere). -/
def sixtyIdentical : List FileCopyEnvelope :=
  List.replicate 60 { path := "/p", hasStream := true, identifier := "id", name := "f", dupCount := 0 }

/-- Two stream-backed envelopes with the same source path. -/
def twoSamePath : List FileCopyEnvelope :=
  [{ path := "/dup", hasStream := true, identifier := "i", name := "g", dupCount := 0 },
   { path := "/dup", hasStream := true, identifier := "i", name := "g", dupCount := 0 }]

/-! ## String helpers shared by several components -/

/-- Does the character list contain the needle as a contiguous run? -/
def listHasSubstr (needle : List Char) : List Char → Bool
  | [] => needle.isEmpty
  | c :: t => needle.isPrefixOf (c :: t) || listHasSubstr needle t

/-- strings.Contains. -/
def strContainsSub (hay needle : String) : Bool :=
  listHasSubstr needle.data hay.data

/-- strings.HasSuffix (also the effect of a Go regexp of the form `.*(pat$)`). -/
def strEndsWith (hay sfx : String) : Bool :=
  sfx.data.isSuffixOf hay.data

/-! ## Result data model (tasks package) -/

/-- tasks.ProcIDSysProps. -/
structure ProcIDSysProps where
  procId : Int
  sysPropsKeyToVal : List (String × String)
deriving Repr

/-- tasks.ValidateBlob: a parsed-config tree node. Key/Path/RawValue with
children; `Value` and `FindKey` are modelled below. -/
inductive ValidateBlob where
  | mk (key : String) (path : String) (rawValue : String) (children : List ValidateBlob)
deriving Repr

def ValidateBlob.key : ValidateBlob → String
  | .mk k _ _ _ => k

def ValidateBlob.path : ValidateBlob → String
  | .mk _ p _ _ => p

def ValidateBlob.rawValue : ValidateBlob → String
  | .mk _ _ rv _ => rv

def ValidateBlob.children : ValidateBlob → List ValidateBlob
  | .mk _ _ _ cs => cs

/-- Modelled from the spec: tasks.ValidateBlob.IsLeaf is not under src/; a
node with no children is a leaf. -/
def ValidateBlob.isLeaf (b : ValidateBlob) : Bool :=
  b.children.isEmpty

/-- Modelled from the spec: tasks.ValidateBlob.Value is not under src/; it
renders the raw value of the node. -/
def ValidateBlob.value (b : ValidateBlob) : String :=
  b.rawValue

mutual

/-- Modelled from the spec: tasks.ValidateBlob.FindKey is not under src/; it
collects every node of the tree whose key equals the argument. -/
def ValidateBlob.findKey : ValidateBlob → String → List ValidateBlob
  | .mk k p rv cs, key =>
    (if k = key then [ValidateBlob.mk k p rv cs] else []) ++ findKeyList cs key

def findKeyList : List ValidateBlob → String → List ValidateBlob
  | [], _ => []
  | c :: cs, key => c.findKey key ++ findKeyList cs key

end

/-- config.ConfigElement: the file name and directory of a found config file. -/
structure ConfigElement where
  fileName : String
  filePath : String
deriving Repr

/-- config.ValidateElement (the parts the embedded tasks read). -/
structure ValidateElement where
  config : ConfigElement
  parsedResult : ValidateBlob
deriving Repr

/-- config.AppNameInfo. -/
structure AppNameInfo where
  name : String
  filePath : String
deriving DecidableEq, Repr

/-- tasks.Result.Payload is an interface value; this variant type covers the
payload shapes the embedded tasks produce or assert. -/
inductive Payload where
  | none_
  | str (s : String)
  | envVars (kvs : List (String × String))
  | procSysProps (ps : List ProcIDSysProps)
  | validateElements (es : List ValidateElement)
  | appNameInfos (l : List AppNameInfo)
  | hsmMap (m : List (String × Bool))
deriving Repr

/-- tasks.Result. -/
structure Result where
  status : Status
  summary : String
  url : String
  payload : Payload
deriving Repr

/-- tasks.Result.HasPayload (not under src/): the payload interface value is
non-nil. -/
def Result.hasPayload (r : Result) : Bool :=
  match r.payload with
  | .none_ => false
  | _ => true

/-- The single-value type assertion `Payload.(map[string]bool)` of
WriteLineResults: yields the map, and on a payload of any other dynamic type
Go panics — modelled as `none`. -/
def Payload.asHsmMap? : Payload → Option (List (String × Bool))
  | .hsmMap m => some m
  | _ => none

/-- Modelled from the spec: the shared summary constants of the tasks package
are not under src/; their exact wording does not matter to any claim. -/
def NoAgentDetectedSummary : String := "No New Relic agent detected"

/-- Modelled from the spec: see NoAgentDetectedSummary. -/
def NoAgentUpstreamSummary : String :=
  "Task did not run because no agent was detected by the upstream task "

/-- Modelled from the spec: see NoAgentDetectedSummary. -/
def UpstreamFailedSummary : String :=
  "Task did not run because the upstream task failed: "

/-- Modelled from the spec: see NoAgentDetectedSummary. -/
def AssertionErrorSummary : String :=
  "Task failed due to an internal type assertion error"

/-! ## Result Aggregator (output package, WriteLineResults) -/

/-- registration.TaskResult: the identifier of the task, its result and the
override flag. -/
structure TaskResult where
  identifier : String
  result : Result
  wasOverride : Bool
deriving Repr

/-- Go `len` of a character: its UTF-8 byte size. -/
def charUtf8Len (c : Char) : Nat :=
  if c.toNat < 0x80 then 1
  else if c.toNat < 0x800 then 2
  else if c.toNat < 0x10000 then 3
  else 4

/-- Go `len(s)` for a string: the number of UTF-8 bytes. -/
def goStrLen (s : String) : Nat :=
  (s.data.map charUtf8Len).sum

/-- `regexp.MustCompile("\n").ReplaceAllString(s, " ")`: every newline becomes
a space. -/
def flattenNewlines (s : String) : String :=
  ⟨s.data.map (fun c => if c = '\n' then ' ' else c)⟩

/-- The `%.50s` verb of fmt: the precision truncates the string to at most 50
runes (not bytes). -/
def goTrunc50 (s : String) : String :=
  ⟨s.data.take 50⟩

/-- The ` [summary...] ` payload WriteLineResults appends for Info results:
newlines flattened, `...` appended when the Go byte length exceeds 50, the
text truncated to 50 runes by `%.50s`. -/
def infoPayloadString (summary : String) : String :=
  let newSummary := flattenNewlines summary
  let truncated := if 50 < goStrLen newSummary then "..." else ""
  " [" ++ goTrunc50 newSummary ++ truncated ++ "] "

/-- The loop state of WriteLineResults: displayed lines, the filtered counter
and per-status counts (the `filtered [6]int` array, indexed here by status),
the captured HSM payload and summary, and the accumulated result list. -/
structure WlrState where
  displayed : List String
  filteredCounter : Nat
  filteredCounts : Status → Nat
  hsmPayload : List (String × Bool)
  hsmSummary : String
  returned : List TaskResult

/-- One iteration of the WriteLineResults loop body; `none` is the Go panic
raised by the single-value HSM type assertion on a displayed
Base/Config/ValidateHSM result whose non-nil payload has another shape. -/
def wlrStep (filter : Status → Bool) (st : WlrState) (r : TaskResult) : Option WlrState :=
  if filter r.result.status then
    (if r.identifier = "Base/Config/ValidateHSM" ∧ r.result.hasPayload = true then
      match r.result.payload.asHsmMap? with
      | some m => some { st with hsmPayload := m, hsmSummary := r.result.summary }
      | none => none
    else some st).map (fun st1 =>
      let payload := if r.result.status = .info then infoPayloadString r.result.summary else ""
      let line := r.identifier ++ payload ++ (if r.wasOverride then " (override)" else "")
      { st1 with displayed := st1.displayed ++ [line], returned := st1.returned ++ [r] })
  else
    some { st with
      filteredCounter := st.filteredCounter + 1
      filteredCounts := fun s => if s = r.result.status then st.filteredCounts s + 1 else st.filteredCounts s
      returned := st.returned ++ [r] }

/-- The WriteLineResults loop over the results stream; a `none` from any
iteration is a panic escaping the whole function. -/
def wlrFold (filter : Status → Bool) : List TaskResult → WlrState → Option WlrState
  | [], st => some st
  | r :: rs, st =>
    match wlrStep filter st r with
    | none => none
    | some st1 => wlrFold filter rs st1

/-- What WriteLineResults emits and returns. The filtered-summary message is
kept structured (count, connective text, per-status breakdown) because
`filteredToString` is not under src/. -/
structure AggOutput where
  displayed : List String
  filteredMessage : Option (Nat × String × (Status → Nat))
  hsmLines : List String
  seeResultsLine : Bool
  returned : List TaskResult

/-- The post-loop emissions and return value of WriteLineResults, built from
the final loop state: the filtered-results summary (only when something was
filtered), the HSM lines, and the final pointer line (only when any result
was observed). -/
def aggBuild (veryQuiet autoAttach : Bool) (apiKey : String) (st : WlrState) : AggOutput :=
  { displayed := st.displayed
    filteredMessage :=
      if 0 < st.filteredCounter then
        some (st.filteredCounter,
              (if veryQuiet then " results: " else " results not shown: "),
              st.filteredCounts)
      else none
    hsmLines :=
      if st.hsmPayload.length > 0 then
        [st.hsmSummary,
         if autoAttach = true ∨ apiKey ≠ "" then
           "See your uploaded results to validate High Security Mode settings.\n"
         else
           "To upload results and validate High Security Mode settings, run the Diagnostics CLI with the -a or -api-key flag.\n"]
      else []
    seeResultsLine := st.returned.length > 0
    returned := st.returned }

/-- WriteLineResults: drain the results stream, then build the emissions and
return value with aggBuild; return all observed results in order. `none` is a
panic of the HSM type assertion: the function never returns and nothing is
emitted after the loop. -/
def WriteLineResults (filter : Status → Bool) (veryQuiet autoAttach : Bool) (apiKey : String)
    (results : List TaskResult) : Option AggOutput :=
  (wlrFold filter results
    { displayed := [], filteredCounter := 0, filteredCounts := fun _ => 0,
      hsmPayload := [], hsmSummary := "", returned := [] }).map
    (aggBuild veryQuiet autoAttach apiKey)

/-- A displayed Base/Config/ValidateHSM result whose non-nil payload is not a
map of string to bool. -/
def hsmBadResult : TaskResult :=
  { identifier := "Base/Config/ValidateHSM",
    result := { status := .info, summary := "High security mode", url := "",
                payload := .str "not a map" },
    wasOverride := false }

/-- The results the active filter hides (those counted, not displayed). -/
def hiddenOf (filter : Status → Bool) (results : List TaskResult) : List TaskResult :=
  results.filter (fun r => !(filter r.result.status))

/-! ## Archive Builder (output package, HandleIncludeFlag) -/

/-- A user-supplied include path: whether os.Stat succeeds, whether the stat
error is os.ErrNotExist, and the regular files under the path (name, size). -/
structure IncludeDir where
  statSucceeds : Bool
  errIsNotExist : Bool
  files : List (String × Nat)
deriving Repr

/-- GetTotalSize: the cumulative size of the regular files under the path. -/
def GetTotalSize (d : IncludeDir) : Nat :=
  (d.files.map Prod.snd).sum

/-- The user-visible messages of the archive step. -/
inductive ArchiveMsg where
  | fatalIncludeTooLarge
  | noFilesFoundAt (p : String)
  | statErr
deriving DecidableEq, Repr

/-- Modelled from the spec: WalkCopyFunction/WriteFileToZip are not under
src/; per the spec each regular file of the include path lands in the archive
under the fixed Include/ namespace. -/
def includeEntryName (fileName : String) : String :=
  "nrdiag-output/Include/" ++ fileName

/-- HandleIncludeFlag: reject the whole include with a user-facing error when
the cumulative size exceeds the hard ceiling, otherwise copy the include path
into the archive. log.Fatalf is not under src/; it is modelled from the spec
as rejecting the include step while the rest of the archive proceeds. -/
def HandleIncludeFlag (zip : List String) (d : IncludeDir) : List String × List ArchiveMsg :=
  if d.statSucceeds then
    if GetTotalSize d > 3999999999 then
      (zip, [ArchiveMsg.fatalIncludeTooLarge])
    else
      (zip ++ d.files.map (fun f => includeEntryName f.1), [])
  else if d.errIsNotExist then
    (zip, [ArchiveMsg.noFilesFoundAt "include"])
  else
    (zip, [ArchiveMsg.statErr])

/-- CopySingleFileToZip: stat the file under the output path and, when it
exists, add it to the archive (copyFilesToZip is not under src/; per the spec
the output document keeps its fixed top-level name). -/
def CopySingleFileToZip (fileExists : String → Bool) (zip : List String) (filename : String) : List String :=
  if fileExists filename then zip ++ [filename] else zip

/-- CopyOutputToZip: add nrdiag-output.json to the archive. -/
def CopyOutputToZip (fileExists : String → Bool) (zip : List String) : List String :=
  CopySingleFileToZip fileExists zip "nrdiag-output.json"

/-- Modelled from the spec: the caller sequencing the archive step is not
under src/; per the spec the archive carries the output document at its fixed
top-level name and then the optional user include path. -/
def archiveStep (fileExists : String → Bool) (d : IncludeDir) : List String × List ArchiveMsg :=
  HandleIncludeFlag (CopyOutputToZip fileExists []) d

/-! ## Uploader (attach package) -/

/-- attach.UploadFiles. -/
structure UploadFiles where
  path : String
  filename : String
  newFilename : String
  filesize : Nat
  url : String
  key : String
deriving Repr

/-- The per-file outcomes of the collaborators of the uploader for one file:
whether GetReader fails, the HTTP status code of the transfer, and the
outcome of requesting the resulting public URL. -/
structure UploadOutcome where
  readerErr : Option String
  statusCode : Nat
  urlResult : Except String String
deriving Repr

/-- Modelled from the spec: attach.uploadFile is not under src/ (only its
tests are); a reader-construction error, a non-2xx transfer status, or a URL
request error is a failure for the file, otherwise the public URL is
returned. -/
def uploadFile (o : UploadOutcome) : Except String String :=
  match o.readerErr with
  | some e => Except.error e
  | none =>
    if 200 ≤ o.statusCode ∧ o.statusCode ≤ 299 then o.urlResult
    else Except.error "bad status code"

/-- The public URL of a file whose upload succeeds. -/
def urlVal (o : UploadOutcome) : String :=
  match uploadFile o with
  | .ok u => u
  | .error _ => ""

/-- Modelled from the spec: attach.uploadFilesToAccount is not under src/
(only its tests are); files upload in order, the first per-file failure
aborts the batch and surfaces the error. The second component counts the
files actually attempted. -/
def uploadFilesToAccount : List UploadOutcome → Except String (List String) × Nat
  | [] => (Except.ok [], 0)
  | f :: rest =>
    match uploadFile f with
    | .error e => (Except.error e, 1)
    | .ok u =>
      let r := uploadFilesToAccount rest
      (match r.1 with
       | .error e => Except.error e
       | .ok us => Except.ok (u :: us), r.2 + 1)

/-- Modelled from the spec: attach.getAttachmentsEndpoint is not under src/
(only its tests are); the runtime flag wins over the persisted configuration
value, which wins over the fixed loopback default. -/
def getAttachmentsEndpoint (flagsAttachmentEndpoint attachmentEndpoint : String) : String :=
  if flagsAttachmentEndpoint ≠ "" then flagsAttachmentEndpoint
  else if attachmentEndpoint ≠ "" then attachmentEndpoint
  else "http://localhost:3000/attachments"

/-! ## Base/Env/InitSystem task -/

/-- env.parseInitSystem: the `== "/sbin/init"` check, the two anchored
regexes, and the busybox substring check, in source order. -/
def parseInitSystem (initPath : String) : String :=
  if initPath = "/sbin/init" then "SysV"
  else if strEndsWith initPath "/systemd" then "Systemd"
  else if strEndsWith initPath "upstart" then "Upstart"
  else if strContainsSub initPath "busybox" then "OpenRC Busybox integration"
  else ""

/-- env.BaseEnvInitSystem: the runtime OS and the outcome of
`evalSymlink("/sbin/init")`. -/
structure BaseEnvInitSystem where
  runtimeOs : String
  evalSymlink : Except String String

/-- env.BaseEnvInitSystem.Execute. -/
def BaseEnvInitSystem.Execute (p : BaseEnvInitSystem) : Result :=
  if p.runtimeOs = "windows" then
    { status := .none_, summary := "Task does not apply to Windows", url := "", payload := .none_ }
  else if p.runtimeOs = "darwin" then
    { status := .none_, summary := "Task does not apply to Mac OS", url := "", payload := .none_ }
  else
    match p.evalSymlink with
    | .error e =>
      { status := .none_, summary := "Unable to read symbolic link for /sbin/init: " ++ e,
        url := "", payload := .none_ }
    | .ok initPath =>
      let initSystem := parseInitSystem initPath
      if initSystem = "" then
        { status := .none_, summary := "Unable to parse init system from: " ++ initPath,
          url := "", payload := .none_ }
      else
        { status := .info, summary := initSystem ++ " detected", url := "",
          payload := .str initSystem }

/-- The init systems parseInitSystem can recognise. -/
def knownInitSystems : List String :=
  ["SysV", "Systemd", "Upstart", "OpenRC Busybox integration"]

/-! ## Base/Config/AppName task -/

def appNameEnvVarKey : String := "NEW_RELIC_APP_NAME"

def appNameSysProp : String := "-Dnewrelic.config.app_name"

def appNameConfigKeys : List String :=
  ["app_name", "newrelic.appname", "AppName", "NewRelic.AppName", "name"]

def defaultAppNames : List String :=
  ["PHP Application",
   "Python Application",
   "Python Application (Development)",
   "Python Application (Staging)",
   "My Application",
   "My Application (Development)",
   "My Application (Test)",
   "My Application (Staging)"]

/-- config.getAppNameFromEnvVar: only consulted when the CollectEnvVars
upstream result has Status Info; a failed type assertion leaves a nil map in
Go, so the key is absent and the empty AppNameInfo comes back. -/
def getAppNameFromEnvVar (upstream : String → Result) : AppNameInfo :=
  if (upstream "Base/Env/CollectEnvVars").status = .info then
    match (upstream "Base/Env/CollectEnvVars").payload with
    | .envVars kvs =>
      match kvs.lookup appNameEnvVarKey with
      | some appname => { name := appname, filePath := appNameEnvVarKey }
      | none => { name := "", filePath := "" }
    | _ => { name := "", filePath := "" }
  else { name := "", filePath := "" }

/-- config.getAppNameFromSysProps: the first process whose system property
map carries -Dnewrelic.config.app_name. -/
def getAppNameFromSysProps (upstream : String → Result) : String :=
  if (upstream "Base/Env/CollectSysProps").status = .info then
    match (upstream "Base/Env/CollectSysProps").payload with
    | .procSysProps ps =>
      match ps.findSome? (fun p => p.sysPropsKeyToVal.lookup appNameSysProp) with
      | some appName => appName
      | none => ""
    | _ => ""
  else ""

/-- config.findPrimaryNameKeyInConfigFile: the first config key of
appNameConfigKeys found in the parsed tree; with several hits the one whose
path mentions "common" wins, else the first hit. -/
def findPrimaryAux (cf : ValidateElement) : List String → ValidateBlob
  | [] => ValidateBlob.mk "" "" "" []
  | k :: rest =>
    match cf.parsedResult.findKey k with
    | [] => findPrimaryAux cf rest
    | [b] => b
    | b :: bs =>
      match (b :: bs).find? (fun vb => strContainsSub vb.path "common") with
      | some vb => vb
      | none => b

def findPrimaryNameKeyInConfigFile (cf : ValidateElement) : ValidateBlob :=
  findPrimaryAux cf appNameConfigKeys

/-- The app names one config file contributes in getAppNamesFromConfig. -/
def appNamesFromFile (cf : ValidateElement) : List AppNameInfo :=
  let primaryNameKey := findPrimaryNameKeyInConfigFile cf
  let fp := cf.config.filePath ++ cf.config.fileName
  if 0 < primaryNameKey.key.length then
    if primaryNameKey.isLeaf = false then
      primaryNameKey.children.map (fun child => { name := child.value, filePath := fp })
    else if 0 < primaryNameKey.value.length then
      [{ name := primaryNameKey.value, filePath := fp }]
    else []
  else []

/-- config.getAppNamesFromConfig. -/
def getAppNamesFromConfig (configElements : List ValidateElement) : List AppNameInfo :=
  (configElements.map appNamesFromFile).flatten

/-- The defaultNameMatches string Execute accumulates over default app
names. -/
def defaultNameMatches (infos : List AppNameInfo) : String :=
  infos.foldl
    (fun acc i =>
      defaultAppNames.foldl
        (fun a d =>
          if i.name = d then
            a ++ "\n\t\"" ++ i.name ++ "\" as specified in " ++ i.filePath
          else a)
        acc)
    ""

def defaultWarning : String :=
  "\nMultiple applications with the same default appname will all report to the same source. Consider changing to a unique appname and review the recommended documentation"

def appNamingURL : String :=
  "https://docs.newrelic.com/docs/agents/manage-apm-agents/app-naming/name-your-application"

/-- config.BaseConfigAppName.Execute: environment variable first (early
exit), then system properties, then validated config files. -/
def BaseConfigAppName.Execute (upstream : String → Result) : Result :=
  let appNameInfoFromEnvVar := getAppNameFromEnvVar upstream
  if 0 < appNameInfoFromEnvVar.name.length then
    { status := .success,
      summary := "A unique application name was found through the New Relic App name environment variable: "
        ++ appNameInfoFromEnvVar.name,
      url := "", payload := .appNameInfos [appNameInfoFromEnvVar] }
  else
    let appname := getAppNameFromSysProps upstream
    if appname ≠ "" then
      { status := .success,
        summary := "An application name was found through a New Relic system property: " ++ appname,
        url := "", payload := .appNameInfos [{ name := appname, filePath := appNameSysProp }] }
    else if (upstream "Base/Config/Validate").hasPayload = false then
      { status := .none_,
        summary := "Task did not meet requirements necessary to run: no validated config files to check",
        url := "", payload := .none_ }
    else
      match (upstream "Base/Config/Validate").payload with
      | .validateElements configElements =>
        let appNameInfosFromConfig := getAppNamesFromConfig configElements
        if appNameInfosFromConfig.length = 0 then
          { status := .warning,
            summary := "No New Relic app names were found. Please ensure an app name is set in your New Relic agent configuration file or as a New Relic environment variable (NEW_RELIC_APP_NAME). Ignore this warning if you are troubleshooting for a non APM Agent.",
            url := appNamingURL, payload := .none_ }
        else
          let nameMatches := defaultNameMatches appNameInfosFromConfig
          if 0 < nameMatches.length then
            { status := .warning,
              summary := "One or more of your applications is using a default appname: "
                ++ nameMatches ++ " " ++ defaultWarning,
              url := appNamingURL, payload := .none_ }
          else
            { status := .success,
              summary := toString appNameInfosFromConfig.length ++ " unique application name(s) found: "
                ++ (appNameInfosFromConfig.headD { name := "", filePath := "" }).name,
              url := "", payload := .appNameInfos appNameInfosFromConfig }
      | _ =>
        { status := .error, summary := AssertionErrorSummary, url := "", payload := .none_ }

/-! ## DotNet/Config/Agent task -/

def newrelicConfigKeys : List String := ["-agentEnabled", "-licenseKey"]

def webAppConfigKeys : List String := ["-key", "-targetFramework"]

/-- strings.EqualFold, modelled with ASCII lowercasing (the file names the
task compares are ASCII). -/
def equalFold (a b : String) : Bool :=
  a.toLower = b.toLower

/-- tasks.CaseInsensitiveStringContains (not under src/). -/
def caseInsensitiveStringContains (hay needle : String) : Bool :=
  strContainsSub hay.toLower needle.toLower

/-- config.checkConfigs: validate each candidate file by name pattern and key
presence, falling back to a raw-content check (`rawFileHasConfig` models
tasks.FindStringInFile, not under src/). Returns the validated files and the
error flag (true when none validated). -/
def checkConfigs (rawFileHasConfig : String → Bool) (configFiles : List ValidateElement) :
    List ValidateElement × Bool :=
  let filesValidated := configFiles.foldl
    (fun acc configFile =>
      let fullPath := configFile.config.filePath ++ configFile.config.fileName
      let keysToCheck : Option (List String) :=
        if equalFold configFile.config.fileName "newrelic.config" then
          some newrelicConfigKeys
        else if equalFold configFile.config.fileName "web.config"
            ∨ caseInsensitiveStringContains configFile.config.fileName ".exe.config" then
          some webAppConfigKeys
        else none
      match keysToCheck with
      | none => acc
      | some keys =>
        let keysFound := keys.filter (fun k => 0 < (configFile.parsedResult.findKey k).length)
        if 0 < keysFound.length then acc ++ [configFile]
        else if rawFileHasConfig fullPath then acc ++ [configFile]
        else acc)
    []
  (filesValidated, filesValidated.isEmpty)

/-- config.DotNetConfigAgent.Execute: abort with Status None when the
DotNet/Agent/Installed upstream result is not Success, otherwise validate the
config files from Base/Config/Validate. -/
def DotNetConfigAgent.Execute (rawFileHasConfig : String → Bool) (upstream : String → Result) : Result :=
  if (upstream "DotNet/Agent/Installed").status ≠ .success then
    if (upstream "DotNet/Agent/Installed").summary = NoAgentDetectedSummary then
      { status := .none_, summary := NoAgentUpstreamSummary ++ "DotNet/Agent/Installed",
        url := "", payload := .none_ }
    else
      { status := .none_, summary := UpstreamFailedSummary ++ "DotNet/Agent/Installed",
        url := "", payload := .none_ }
  else
    match (upstream "Base/Config/Validate").payload with
    | .validateElements configFiles =>
      let r := checkConfigs rawFileHasConfig configFiles
      if r.2 then
        { status := .warning,
          summary := "Unable to validate the .NET agent config files because the files do not contain typical .NET agent configuration settings.",
          url := "", payload := .none_ }
      else
        { status := .success,
          summary := "Found " ++ toString r.1.length ++ " .NET agent config files.",
          url := "", payload := .validateElements r.1 }
    | _ =>
      { status := .error, summary := AssertionErrorSummary, url := "", payload := .none_ }

/-- The first file of the upload scenarios: succeeds with a public URL. -/
def uploadOk1 : UploadOutcome :=
  { readerErr := none, statusCode := 200, urlResult := Except.ok "https://newrelic.com/1" }

/-- A second successful file. -/
def uploadOk2 : UploadOutcome :=
  { readerErr := none, statusCode := 201, urlResult := Except.ok "https://newrelic.com/2" }

/-- A file whose URL request returns an error. -/
def uploadUrlErr : UploadOutcome :=
  { readerErr := none, statusCode := 200, urlResult := Except.error "URL Error" }

/-- A summary with an embedded newline whose characters are two-byte UTF-8
runes: 26 copies of a two-byte rune followed by a newline (53 Go bytes but
only 27 runes once flattened). -/
def multibyteSummary : String := "éééééééééééééééééééééééééé\n"

/-- A concrete upstream map whose CollectEnvVars result carries the app-name
environment variable. -/
def c9Upstream : String → Result := fun id =>
  if id = "Base/Env/CollectEnvVars" then
    { status := .info, summary := "Env vars", url := "",
      payload := .envVars [("NEW_RELIC_APP_NAME", "MyApp")] }
  else
    { status := .none_, summary := "", url := "", payload := .none_ }

/-- A Linux host whose /sbin/init symlink resolves to systemd. -/
def c8Task : BaseEnvInitSystem :=
  { runtimeOs := "linux", evalSymlink := Except.ok "/lib/systemd/systemd" }

/-- A concrete upstream map whose DotNet/Agent/Installed result failed. -/
def c10Upstream : String → Result := fun id =>
  if id = "DotNet/Agent/Installed" then
    { status := .failure, summary := "installation check failed", url := "", payload := .none_ }
  else
    { status := .success, summary := "", url := "", payload := .validateElements [] }

/-! ## Invariants used in the proofs -/

/-- Collector invariant for name de-duplication: the accepted
envelope archive names are exactly the taken-name list, which has no duplicates. -/
def namesInv (st : CollectorState) : Prop :=
  st.taskFiles.map FileCopyEnvelope.storeName = st.fileList ∧ st.fileList.Nodup

/-- Collector invariant for path de-duplication of path-backed envelopes:
the path of every accepted path-backed envelope is recorded, and the recorded
path-backed envelopes have pairwise-distinct paths. -/
def pathsInv (st : CollectorState) : Prop :=
  (∀ e ∈ st.taskFiles, e.hasStream = false → e.path ∈ st.pathList) ∧
  ((st.taskFiles.filter (fun e => !e.hasStream)).map FileCopyEnvelope.path).Nodup

end NrDiag

namespace NrDiag

/-! # Theorems -/

/-- A foldl preserves any invariant its step preserves. -/
theorem foldl_preserve {σ α : Type _} (P : σ → Prop) (f : σ → α → σ)
    (hf : ∀ s a, P s → P (f s a)) :
    ∀ (l : List α) (s : σ), P s → P (l.foldl f s) := by
  intro l
  induction l with
  | nil => intro s h; exact h
  | cons a t ih => intro s h; exact ih _ (hf s a h)

theorem namesInv_nameLoop (tid : String) :
    ∀ (fuel : Nat) (e : FileCopyEnvelope) (st : CollectorState),
      namesInv st → namesInv (nameLoop tid st fuel e) := by
  intro fuel
  induction fuel with
  | zero => intro e st h; simpa [nameLoop] using h
  | succ n ih =>
    intro e st h
    rw [nameLoop]
    split
    · exact ih _ st h
    · rename_i hmem
      obtain ⟨hmap, hnd⟩ := h
      refine ⟨?_, ?_⟩
      · simp only [List.map_append, hmap, List.map_cons, List.map_nil]
        congr 2
        split <;> rfl
      · rw [List.nodup_append]
        refine ⟨hnd, List.nodup_singleton _, ?_⟩
        intro b hb hc
        simp only [List.mem_singleton] at hc
        exact hmem (hc ▸ hb)

theorem namesInv_processEnvelope (fe : String → Bool) (ie : FileCopyEnvelope → Except Unit Bool)
    (tid : String) (st : CollectorState) (e : FileCopyEnvelope) (h : namesInv st) :
    namesInv (processEnvelope fe ie tid st e) := by
  unfold processEnvelope
  split
  · exact h
  · split
    · exact h
    · exact h
    · split
      · exact h
      · exact namesInv_nameLoop tid 49 e st h

theorem namesInv_run (fe : String → Bool) (ie : FileCopyEnvelope → Except Unit Bool)
    (rs : List (String × List FileCopyEnvelope)) :
    namesInv (ProcessFilesChannel fe ie rs) := by
  unfold ProcessFilesChannel
  refine foldl_preserve namesInv _ ?_ rs ⟨[], [], []⟩ ⟨rfl, List.nodup_nil⟩
  intro s a hs
  exact foldl_preserve namesInv _ (fun s' e h' => namesInv_processEnvelope fe ie a.1 s' e h') a.2 s hs

/-- C2: the accepted envelopes of the Collector always carry pairwise-distinct
archive names, but the dedup loop `for i := 1; i < 50` makes only 49
attempts: of 60 envelopes with identical logical names, 49 (not 50) are
accepted and the remaining 11 dropped. -/
theorem c2_collector_distinct_names_sixty_accepts_fortynine :
    (∀ (fileExists : String → Bool) (isExec : FileCopyEnvelope → Except Unit Bool)
        (results : List (String × List FileCopyEnvelope)),
      ((ProcessFilesChannel fileExists isExec results).taskFiles.map
        FileCopyEnvelope.storeName).Nodup)
    ∧ (ProcessFilesChannel (fun _ => true) (fun _ => .ok false)
        [("T", sixtyIdentical)]).taskFiles.length = 49 := by
  constructor
  · intro fe ie rs
    obtain ⟨hmap, hnd⟩ := namesInv_run fe ie rs
    rw [hmap]
    exact hnd
  · decide

theorem pathsInv_nameLoop (tid : String) :
    ∀ (fuel : Nat) (e : FileCopyEnvelope) (st : CollectorState),
      pathsInv st → (e.hasStream = true ∨ e.path ∉ st.pathList) →
      pathsInv (nameLoop tid st fuel e) := by
  intro fuel
  induction fuel with
  | zero => intro e st h _; simpa [nameLoop] using h
  | succ n ih =>
    intro e st h hguard
    rw [nameLoop]
    split
    · exact ih _ st h hguard
    · obtain ⟨hrec, hnd⟩ := h
      set e' := (if e.identifier = "" then { e with identifier := tid } else e) with he'
      have hpath : e'.path = e.path := by
        rw [he']
        split <;> rfl
      have hstream : e'.hasStream = e.hasStream := by
        rw [he']
        split <;> rfl
      refine ⟨?_, ?_⟩
      · intro f hf hfs
        rcases List.mem_append.mp hf with hf | hf
        · exact List.mem_append_left _ (hrec f hf hfs)
        · simp only [List.mem_singleton] at hf
          subst hf
          rw [hpath]
          exact List.mem_append_right _ (List.mem_singleton.mpr rfl)
      · rw [List.filter_append, List.map_append]
        by_cases hs : e.hasStream = true
        · have hfe : List.filter (fun x => !x.hasStream) [e'] = [] := by
            simp [List.filter, hstream, hs]
          rw [hfe]
          simpa using hnd
        · have hs' : e.hasStream = false := by
            cases hb : e.hasStream
            · rfl
            · exact absurd hb hs
          have hnp : e.path ∉ st.pathList := by
            rcases hguard with hg | hg
            · exact absurd hg hs
            · exact hg
          have hfe : List.filter (fun x => !x.hasStream) [e'] = [e'] := by
            simp [List.filter, hstream, hs']
          rw [hfe]
          rw [List.nodup_append]
          refine ⟨hnd, by simp, ?_⟩
          intro b hb hc
          simp only [List.map_cons, List.map_nil, List.mem_singleton] at hc
          rw [hpath] at hc
          subst hc
          obtain ⟨f, hf, hfp⟩ := List.mem_map.mp hb
          have hf' := List.mem_filter.mp hf
          have hfs : f.hasStream = false := by
            have := hf'.2
            simpa using this
          exact hnp (hfp ▸ hrec f hf'.1 hfs)

theorem pathsInv_processEnvelope (fe : String → Bool) (ie : FileCopyEnvelope → Except Unit Bool)
    (tid : String) (st : CollectorState) (e : FileCopyEnvelope) (h : pathsInv st) :
    pathsInv (processEnvelope fe ie tid st e) := by
  unfold processEnvelope
  split
  · exact h
  · split
    · exact h
    · exact h
    · split
      · exact h
      · rename_i hcond
        refine pathsInv_nameLoop tid 49 e st h ?_
        by_cases hs : e.hasStream = true
        · exact Or.inl hs
        · right
          intro hp
          refine hcond ⟨?_, hp⟩
          cases hb : e.hasStream
          · rfl
          · exact absurd hb hs

theorem pathsInv_run (fe : String → Bool) (ie : FileCopyEnvelope → Except Unit Bool)
    (rs : List (String × List FileCopyEnvelope)) :
    pathsInv (ProcessFilesChannel fe ie rs) := by
  unfold ProcessFilesChannel
  refine foldl_preserve pathsInv _ ?_ rs ⟨[], [], []⟩
    ⟨fun e he => absurd he (List.not_mem_nil e), List.nodup_nil⟩
  intro s a hs
  exact foldl_preserve pathsInv _ (fun s' e h' => pathsInv_processEnvelope fe ie a.1 s' e h') a.2 s hs

/-- C3 counterexample: two stream-backed envelopes with the same source path
are both accepted (the path check is guarded by `envelope.Stream == nil`), so
the run accepts two envelopes for one distinct path. -/
theorem c3_counterexample_stream_envelopes_share_path :
    ((ProcessFilesChannel (fun _ => true) (fun _ => .ok false)
        [("T", twoSamePath)]).taskFiles.map FileCopyEnvelope.path) = ["/dup", "/dup"]
    ∧ ¬ ((ProcessFilesChannel (fun _ => true) (fun _ => .ok false)
        [("T", twoSamePath)]).taskFiles.map FileCopyEnvelope.path).Nodup := by
  constructor
  · decide
  · decide

/-- C3 amended: among envelopes backed by an on-disk path (no in-memory
stream), the Collector accepts at most one envelope per distinct source
path; stream-backed envelopes bypass path de-duplication. -/
theorem c3_path_dedup_for_path_backed_envelopes :
    ∀ (fileExists : String → Bool) (isExec : FileCopyEnvelope → Except Unit Bool)
      (results : List (String × List FileCopyEnvelope)),
      (((ProcessFilesChannel fileExists isExec results).taskFiles.filter
          (fun e => !e.hasStream)).map FileCopyEnvelope.path).Nodup := by
  intro fe ie rs
  exact (pathsInv_run fe ie rs).2

/-- C1: an include path whose cumulative size exceeds the 4 GB ceiling is
rejected whole with a user-facing error, nothing under it is archived, and
the main output document is still present in the archive. -/
theorem c1_include_oversize_rejected_output_present :
    ∀ (fileExists : String → Bool) (d : IncludeDir),
      fileExists "nrdiag-output.json" = true →
      d.statSucceeds = true →
      4000000000 ≤ GetTotalSize d →
      (archiveStep fileExists d).1 = ["nrdiag-output.json"]
      ∧ (archiveStep fileExists d).2 = [ArchiveMsg.fatalIncludeTooLarge]
      ∧ "nrdiag-output.json" ∈ (archiveStep fileExists d).1
      ∧ ∀ f ∈ d.files, includeEntryName f.1 ∉ (archiveStep fileExists d).1 := by
  intro fe d hfe hstat hsz
  have hgt : GetTotalSize d > 3999999999 := lt_of_lt_of_le (by norm_num) hsz
  have harch : archiveStep fe d = (["nrdiag-output.json"], [ArchiveMsg.fatalIncludeTooLarge]) := by
    rw [archiveStep, CopyOutputToZip, CopySingleFileToZip, if_pos hfe,
      HandleIncludeFlag, if_pos hstat, if_pos hgt]
    rfl
  refine ⟨by rw [harch], by rw [harch], by rw [harch]; exact List.mem_singleton.mpr rfl, ?_⟩
  intro f hf hmem
  rw [harch] at hmem
  have heq : includeEntryName f.1 = "nrdiag-output.json" := by simpa using hmem
  have hlen := congrArg String.length heq
  rw [includeEntryName, String.length_append] at hlen
  have h22 : ("nrdiag-output/Include/" : String).length = 22 := rfl
  have h18 : ("nrdiag-output.json" : String).length = 18 := rfl
  rw [h22, h18] at hlen
  omega

/-- C1 witness: files totaling 5,000,000,000 bytes. -/
theorem c1_include_oversize_rejected_output_present_witness :
    ((fun _ => true) : String → Bool) "nrdiag-output.json" = true
    ∧ IncludeDir.statSucceeds
        { statSucceeds := true, errIsNotExist := false, files := [("big.bin", 5000000000)] } = true
    ∧ 4000000000 ≤ GetTotalSize
        { statSucceeds := true, errIsNotExist := false, files := [("big.bin", 5000000000)] }
    ∧ ((archiveStep (fun _ => true)
          { statSucceeds := true, errIsNotExist := false, files := [("big.bin", 5000000000)] }).1
        = ["nrdiag-output.json"]
      ∧ (archiveStep (fun _ => true)
          { statSucceeds := true, errIsNotExist := false, files := [("big.bin", 5000000000)] }).2
        = [ArchiveMsg.fatalIncludeTooLarge]
      ∧ "nrdiag-output.json" ∈ (archiveStep (fun _ => true)
          { statSucceeds := true, errIsNotExist := false, files := [("big.bin", 5000000000)] }).1
      ∧ ∀ f ∈ IncludeDir.files
          { statSucceeds := true, errIsNotExist := false, files := [("big.bin", 5000000000)] },
          includeEntryName f.1 ∉ (archiveStep (fun _ => true)
            { statSucceeds := true, errIsNotExist := false, files := [("big.bin", 5000000000)] }).1) :=
  ⟨rfl, rfl, by norm_num [GetTotalSize],
   c1_include_oversize_rejected_output_present (fun _ => true)
     { statSucceeds := true, errIsNotExist := false, files := [("big.bin", 5000000000)] }
     rfl rfl (by norm_num [GetTotalSize])⟩

/-- C4: a per-file failure (reader error, non-2xx status, or URL request
error) aborts the batch after the failing file and surfaces an error with no
URLs; when every file succeeds the result is the ordered public URL list,
one per input file. -/
theorem c4_upload_failure_aborts_success_ordered :
    (∀ (fs1 : List UploadOutcome) (f : UploadOutcome) (fs2 : List UploadOutcome),
      (∀ g ∈ fs1, ∃ u, uploadFile g = Except.ok u) →
      (∃ e, uploadFile f = Except.error e) →
      ∃ e, (uploadFilesToAccount (fs1 ++ f :: fs2)).1 = Except.error e
        ∧ (uploadFilesToAccount (fs1 ++ f :: fs2)).2 = fs1.length + 1)
    ∧ (∀ fs : List UploadOutcome,
      (∀ g ∈ fs, ∃ u, uploadFile g = Except.ok u) →
      (uploadFilesToAccount fs).1 = Except.ok (fs.map urlVal)
        ∧ (uploadFilesToAccount fs).2 = fs.length) := by
  constructor
  · intro fs1
    induction fs1 with
    | nil =>
      intro f fs2 _ hf
      obtain ⟨e, he⟩ := hf
      exact ⟨e, by simp [uploadFilesToAccount, he], by simp [uploadFilesToAccount, he]⟩
    | cons g t ih =>
      intro f fs2 hok hf
      obtain ⟨u, hu⟩ := hok g (List.mem_cons_self g t)
      obtain ⟨e, he1, he2⟩ := ih f fs2 (fun x hx => hok x (List.mem_cons_of_mem g hx)) hf
      refine ⟨e, ?_, ?_⟩
      · simp only [List.cons_append, uploadFilesToAccount, List.append_eq, hu]
        rw [he1]
      · simp only [List.cons_append, uploadFilesToAccount, List.append_eq, hu]
        simp [he2, Nat.add_comm, Nat.add_assoc]
  · intro fs
    induction fs with
    | nil => intro _; exact ⟨rfl, rfl⟩
    | cons g t ih =>
      intro hok
      obtain ⟨u, hu⟩ := hok g (List.mem_cons_self g t)
      obtain ⟨h1, h2⟩ := ih (fun x hx => hok x (List.mem_cons_of_mem g hx))
      have huv : urlVal g = u := by simp [urlVal, hu]
      constructor
      · simp only [uploadFilesToAccount, hu]
        rw [h1]
        simp [huv]
      · simp only [uploadFilesToAccount, hu]
        simp [h2]

/-- C4 witness: two files, the second failing its URL request — the batch
surfaces an error and no URL; and a two-file all-success batch returns both
URLs in order. -/
theorem c4_upload_failure_aborts_success_ordered_witness :
    (∀ g ∈ [uploadOk1], ∃ u, uploadFile g = Except.ok u)
    ∧ (∃ e, uploadFile uploadUrlErr = Except.error e)
    ∧ (∃ e, (uploadFilesToAccount ([uploadOk1] ++ uploadUrlErr :: [])).1 = Except.error e
        ∧ (uploadFilesToAccount ([uploadOk1] ++ uploadUrlErr :: [])).2 = [uploadOk1].length + 1)
    ∧ ((uploadFilesToAccount [uploadOk1, uploadOk2]).1
        = Except.ok (List.map urlVal [uploadOk1, uploadOk2])) :=
  ⟨fun g hg => ⟨"https://newrelic.com/1", by
      simp only [List.mem_singleton] at hg
      rw [hg]
      rfl⟩,
   ⟨"URL Error", rfl⟩,
   c4_upload_failure_aborts_success_ordered.1 [uploadOk1] uploadUrlErr []
     (fun g hg => ⟨"https://newrelic.com/1", by
        simp only [List.mem_singleton] at hg
        rw [hg]
        rfl⟩)
     ⟨"URL Error", rfl⟩,
   (c4_upload_failure_aborts_success_ordered.2 [uploadOk1, uploadOk2]
     (fun g hg => by
        rcases List.mem_cons.mp hg with h | h
        · exact ⟨"https://newrelic.com/1", by rw [h]; rfl⟩
        · simp only [List.mem_singleton] at h
          exact ⟨"https://newrelic.com/2", by rw [h]; rfl⟩)).1⟩

/-- C7: the attachments endpoint resolves as flag value, else persisted
configuration value, else the fixed loopback default. -/
theorem c7_attachments_endpoint_precedence :
    ∀ flagVal cfgVal : String,
      (flagVal ≠ "" → getAttachmentsEndpoint flagVal cfgVal = flagVal)
      ∧ (flagVal = "" → cfgVal ≠ "" → getAttachmentsEndpoint flagVal cfgVal = cfgVal)
      ∧ (flagVal = "" → cfgVal = "" →
          getAttachmentsEndpoint flagVal cfgVal = "http://localhost:3000/attachments") := by
  intro a b
  refine ⟨?_, ?_, ?_⟩
  · intro h
    simp [getAttachmentsEndpoint, h]
  · intro h1 h2
    simp [getAttachmentsEndpoint, h1, h2]
  · intro h1 h2
    simp [getAttachmentsEndpoint, h1, h2]

/-- C7 witness: the three resolutions of the source tests. -/
theorem c7_attachments_endpoint_precedence_witness :
    getAttachmentsEndpoint "" "" = "http://localhost:3000/attachments"
    ∧ getAttachmentsEndpoint "http://diag.datanerd.us/attachments" ""
        = "http://diag.datanerd.us/attachments"
    ∧ getAttachmentsEndpoint "" "http://diag.datanerd.us/attachments"
        = "http://diag.datanerd.us/attachments" :=
  ⟨(c7_attachments_endpoint_precedence "" "").2.2 rfl rfl,
   (c7_attachments_endpoint_precedence "http://diag.datanerd.us/attachments" "").1 (by decide),
   (c7_attachments_endpoint_precedence "" "http://diag.datanerd.us/attachments").2.1 rfl (by decide)⟩

theorem take50_eq_iff (l : List Char) : l.take 50 = l ↔ l.length ≤ 50 := by
  constructor
  · intro h
    have hl := congrArg List.length h
    rw [List.length_take] at hl
    omega
  · intro h
    exact List.take_of_length_le h

theorem ascii_sum_len : ∀ l : List Char, (∀ c ∈ l, c.toNat < 128) → (l.map charUtf8Len).sum = l.length := by
  intro l
  induction l with
  | nil => intro _; rfl
  | cons c t ih =>
    intro h
    have hc : charUtf8Len c = 1 := by
      have := h c (List.mem_cons_self c t)
      simp [charUtf8Len, this]
    simp [hc, ih (fun x hx => h x (List.mem_cons_of_mem c hx))]
    omega

theorem goTrunc50_eq_iff (s : String) : goTrunc50 s = s ↔ s.data.length ≤ 50 := by
  rw [← take50_eq_iff]
  constructor
  · intro h
    exact congrArg String.data h
  · intro h
    exact congrArg String.mk h

/-- C5 counterexample: for a summary of two-byte runes with an embedded
newline, the ellipsis marker is appended although the `%.50s` truncation does
not shorten the flattened summary at all. -/
theorem c5_counterexample_multibyte_marker_without_shortening :
    ('\n' ∈ multibyteSummary.data)
    ∧ infoPayloadString multibyteSummary
        = " [" ++ goTrunc50 (flattenNewlines multibyteSummary) ++ "..." ++ "] "
    ∧ goTrunc50 (flattenNewlines multibyteSummary) = flattenNewlines multibyteSummary := by
  refine ⟨by decide, by decide, by decide⟩

/-- C5 amended: newlines are flattened to spaces before the cap is applied
and the displayed text never carries a newline; the ellipsis marker is
appended exactly when the flattened summary exceeds 50 Go (UTF-8) bytes,
which for an all-ASCII summary coincides with the `%.50s` truncation (at 50
runes) shortening it. -/
theorem c5_flatten_truncate_ellipsis :
    ∀ s : String,
      (infoPayloadString s = " [" ++ goTrunc50 (flattenNewlines s) ++ "..." ++ "] "
        ↔ 50 < goStrLen (flattenNewlines s))
      ∧ ((∀ c ∈ s.data, c.toNat < 128) →
          (infoPayloadString s = " [" ++ goTrunc50 (flattenNewlines s) ++ "..." ++ "] "
            ↔ goTrunc50 (flattenNewlines s) ≠ flattenNewlines s))
      ∧ ∀ c ∈ (flattenNewlines s).data, c ≠ '\n' := by
  intro s
  have hflat_data : (flattenNewlines s).data = s.data.map (fun c => if c = '\n' then ' ' else c) := rfl
  have hmarker : infoPayloadString s = " [" ++ goTrunc50 (flattenNewlines s) ++ "..." ++ "] "
      ↔ 50 < goStrLen (flattenNewlines s) := by
    by_cases h : 50 < goStrLen (flattenNewlines s)
    · simp only [infoPayloadString, if_pos h, eq_self_iff_true, true_iff]
      exact h
    · simp only [infoPayloadString, if_neg h]
      constructor
      · intro heq
        have hl := congrArg String.length heq
        simp only [String.length_append] at hl
        have he : ("" : String).length = 0 := rfl
        have hd : ("..." : String).length = 3 := rfl
        rw [he, hd] at hl
        omega
      · intro hc
        exact absurd hc h
  refine ⟨hmarker, ?_, ?_⟩
  · intro hascii
    rw [hmarker]
    have hfa : ∀ c ∈ (flattenNewlines s).data, c.toNat < 128 := by
      intro c hc
      rw [hflat_data] at hc
      obtain ⟨a, ha, rfl⟩ := List.mem_map.mp hc
      by_cases hna : a = '\n'
      · simp [hna]
      · simpa [hna] using hascii a ha
    have hlen : goStrLen (flattenNewlines s) = (flattenNewlines s).data.length :=
      ascii_sum_len _ hfa
    rw [hlen]
    constructor
    · intro hgt heq
      have := (goTrunc50_eq_iff (flattenNewlines s)).mp heq
      omega
    · intro hne
      by_contra hle
      exact hne ((goTrunc50_eq_iff (flattenNewlines s)).mpr (by omega))
  · intro c hc
    rw [hflat_data] at hc
    obtain ⟨a, _, rfl⟩ := List.mem_map.mp hc
    by_cases hna : a = '\n'
    · simp [hna]
    · simp [hna]

/-- C5 witness for the ASCII case: a 60-byte ASCII summary with newlines gets
the marker, and the truncation indeed shortens it. -/
theorem c5_flatten_truncate_ellipsis_witness :
    (∀ c ∈ ("line one\nline two\nline three padded to sixty characters ok\n").data, c.toNat < 128)
    ∧ (infoPayloadString "line one\nline two\nline three padded to sixty characters ok\n"
        = " [" ++ goTrunc50 (flattenNewlines "line one\nline two\nline three padded to sixty characters ok\n") ++ "..." ++ "] "
      ↔ goTrunc50 (flattenNewlines "line one\nline two\nline three padded to sixty characters ok\n")
        ≠ flattenNewlines "line one\nline two\nline three padded to sixty characters ok\n") :=
  ⟨by decide,
   (c5_flatten_truncate_ellipsis "line one\nline two\nline three padded to sixty characters ok\n").2.1
     (by decide)⟩

theorem wlrStep_displayed (f : Status → Bool) (st : WlrState) (r : TaskResult)
    (hf : f r.result.status = true)
    (hok : r.identifier = "Base/Config/ValidateHSM" → r.result.hasPayload = true →
      ∃ m, r.result.payload = Payload.hsmMap m) :
    ∃ st1, wlrStep f st r = some st1
      ∧ st1.returned = st.returned ++ [r]
      ∧ st1.filteredCounter = st.filteredCounter
      ∧ st1.filteredCounts = st.filteredCounts := by
  unfold wlrStep
  rw [if_pos hf]
  by_cases hg : r.identifier = "Base/Config/ValidateHSM" ∧ r.result.hasPayload = true
  · obtain ⟨m, hm⟩ := hok hg.1 hg.2
    rw [if_pos hg, hm]
    exact ⟨_, rfl, rfl, rfl, rfl⟩
  · rw [if_neg hg]
    exact ⟨_, rfl, rfl, rfl, rfl⟩

theorem wlrStep_hidden (f : Status → Bool) (st : WlrState) (r : TaskResult)
    (hf : ¬ f r.result.status = true) :
    ∃ st1, wlrStep f st r = some st1
      ∧ st1.returned = st.returned ++ [r]
      ∧ st1.filteredCounter = st.filteredCounter + 1
      ∧ st1.filteredCounts
          = fun s => if s = r.result.status then st.filteredCounts s + 1 else st.filteredCounts s := by
  unfold wlrStep
  rw [if_neg hf]
  exact ⟨_, rfl, rfl, rfl, rfl⟩

theorem wlrFold_spec (f : Status → Bool) :
    ∀ (rs : List TaskResult) (st : WlrState),
      (∀ r ∈ rs, f r.result.status = true →
        r.identifier = "Base/Config/ValidateHSM" → r.result.hasPayload = true →
        ∃ m, r.result.payload = Payload.hsmMap m) →
      ∃ st', wlrFold f rs st = some st'
        ∧ st'.returned = st.returned ++ rs
        ∧ st'.filteredCounter = st.filteredCounter + (hiddenOf f rs).length
        ∧ ∀ s, st'.filteredCounts s
            = st.filteredCounts s + ((hiddenOf f rs).filter (fun r => r.result.status = s)).length := by
  intro rs
  induction rs with
  | nil =>
    intro st _
    exact ⟨st, rfl, (List.append_nil _).symm, (Nat.add_zero _).symm, fun s => (Nat.add_zero _).symm⟩
  | cons r t ih =>
    intro st hok
    by_cases hf : f r.result.status = true
    · obtain ⟨st1, hstep, hr, hc, hcs⟩ := wlrStep_displayed f st r hf
        (fun hid hpl => hok r (List.mem_cons_self r t) hf hid hpl)
      obtain ⟨st', hfold, h1, h2, h3⟩ := ih st1 (fun x hx => hok x (List.mem_cons_of_mem r hx))
      have hhide : hiddenOf f (r :: t) = hiddenOf f t := by
        simp [hiddenOf, List.filter_cons, hf]
      refine ⟨st', ?_, ?_, ?_, ?_⟩
      · rw [wlrFold, hstep]
        exact hfold
      · rw [h1, hr, List.append_assoc]
        rfl
      · rw [h2, hc, hhide]
      · intro s
        rw [h3 s, hcs, hhide]
    · obtain ⟨st1, hstep, hr, hc, hcs⟩ := wlrStep_hidden f st r hf
      obtain ⟨st', hfold, h1, h2, h3⟩ := ih st1 (fun x hx => hok x (List.mem_cons_of_mem r hx))
      have hfb : (!f r.result.status) = true := by
        simp [hf]
      have hhide : hiddenOf f (r :: t) = r :: hiddenOf f t := by
        simp [hiddenOf, List.filter_cons, hfb]
      refine ⟨st', ?_, ?_, ?_, ?_⟩
      · rw [wlrFold, hstep]
        exact hfold
      · rw [h1, hr, List.append_assoc]
        rfl
      · rw [h2, hc, hhide]
        simp only [List.length_cons]
        omega
      · intro s
        rw [h3 s]
        simp only [hcs]
        rw [hhide]
        by_cases hss : r.result.status = s
        · have hfil : List.filter (fun x => decide (x.result.status = s)) (r :: hiddenOf f t)
              = r :: List.filter (fun x => decide (x.result.status = s)) (hiddenOf f t) := by
            simp [List.filter_cons, hss]
          rw [if_pos hss.symm, hfil, List.length_cons]
          omega
        · have hss' : ¬ (s = r.result.status) := fun h => hss h.symm
          have hfil : List.filter (fun x => decide (x.result.status = s)) (r :: hiddenOf f t)
              = List.filter (fun x => decide (x.result.status = s)) (hiddenOf f t) := by
            simp [List.filter_cons, hss]
          rw [if_neg hss', hfil]

/-- C6 counterexample: the claim fails on a stream containing a displayed
Base/Config/ValidateHSM result whose non-nil payload is not a map of string
to bool — the single-value type assertion at part 766 panics, WriteLineResults
never returns (modelled as `none`), so no ordered result list and no final
message are produced for that sequence. -/
theorem c6_counterexample_hsm_assertion_panics :
    WriteLineResults (fun _ => true) false false "" [hsmBadResult] = none
    ∧ [hsmBadResult] ≠ [] := by
  constructor
  · rfl
  · simp

/-- C6 amended: for every sequence of TaskResults in which each displayed
Base/Config/ValidateHSM result with a non-nil payload carries a map of
string to bool (in particular any stream without such results),
WriteLineResults returns the complete ordered list of observed results
(filtered ones included), emits the final filtered-results message exactly
when something was hidden — carrying the hidden count and per-status
breakdown — and an empty stream emits nothing and returns the empty list; a
displayed ValidateHSM result with a non-nil payload of another shape panics
the run instead. -/
theorem c6_writelineresults_summary_and_return :
    ∀ (filter : Status → Bool) (vq aa : Bool) (key : String) (rs : List TaskResult),
      (∀ r ∈ rs, filter r.result.status = true →
        r.identifier = "Base/Config/ValidateHSM" → r.result.hasPayload = true →
        ∃ m, r.result.payload = Payload.hsmMap m) →
      ∃ out, WriteLineResults filter vq aa key rs = some out
        ∧ out.returned = rs
        ∧ (out.filteredMessage =
            if (hiddenOf filter rs).length = 0 then none
            else some ((hiddenOf filter rs).length,
                       (if vq then " results: " else " results not shown: "),
                       fun s => ((hiddenOf filter rs).filter (fun r => r.result.status = s)).length))
        ∧ (rs = [] →
            out.displayed = [] ∧ out.filteredMessage = none ∧ out.hsmLines = []
            ∧ out.seeResultsLine = false) := by
  intro f vq aa key rs hok
  obtain ⟨st', hfold, h1, h2, h3⟩ := wlrFold_spec f rs
    { displayed := [], filteredCounter := 0, filteredCounts := fun _ => 0,
      hsmPayload := [], hsmSummary := "", returned := [] } hok
  refine ⟨aggBuild vq aa key st', ?_, ?_, ?_, ?_⟩
  · unfold WriteLineResults
    rw [hfold]
    rfl
  · show st'.returned = rs
    rw [h1]
    exact List.nil_append rs
  · show (if 0 < st'.filteredCounter then _ else none) = _
    rw [h2]
    simp only [Nat.zero_add]
    by_cases hz : (hiddenOf f rs).length = 0
    · rw [if_neg (by omega), if_pos hz]
    · rw [if_pos (by omega), if_neg hz]
      refine congrArg some ?_
      refine congrArg (Prod.mk _) ?_
      refine congrArg (Prod.mk _) ?_
      funext s
      rw [h3 s]
      exact Nat.zero_add _
  · intro hrs
    subst hrs
    have h := hfold
    simp only [wlrFold] at h
    injection h with hinit
    subst hinit
    exact ⟨rfl, rfl, rfl, rfl⟩

/-- C6 witness: the empty stream instance, with the well-shaped-payload
hypothesis discharged vacuously. -/
theorem c6_writelineresults_summary_and_return_witness :
    ∃ out, WriteLineResults (fun _ => true) true false "" [] = some out
      ∧ out.returned = []
      ∧ out.displayed = []
      ∧ out.filteredMessage = none
      ∧ out.hsmLines = []
      ∧ out.seeResultsLine = false := by
  obtain ⟨out, h0, h1, _, h3⟩ :=
    c6_writelineresults_summary_and_return (fun _ => true) true false "" []
      (fun r hr => absurd hr (List.not_mem_nil r))
  obtain ⟨h4, h5, h6, h7⟩ := h3 rfl
  exact ⟨out, h0, h1, h4, h5, h6, h7⟩

theorem parseInitSystem_cases (s : String) :
    parseInitSystem s ∈ knownInitSystems ∨ parseInitSystem s = "" := by
  unfold parseInitSystem
  split_ifs <;> simp [knownInitSystems]

/-- C8: BaseEnvInitSystem.Execute only ever reports None or Info; Info holds
exactly when the OS is neither windows nor darwin, the symlink resolves, and
the resolved path parses to a known init system, which is then the payload. -/
theorem c8_initsystem_status_none_or_info :
    ∀ p : BaseEnvInitSystem,
      (p.Execute.status = Status.none_ ∨ p.Execute.status = Status.info)
      ∧ (p.Execute.status = Status.info ↔
          (p.runtimeOs ≠ "windows" ∧ p.runtimeOs ≠ "darwin"
            ∧ ∃ initPath, p.evalSymlink = Except.ok initPath ∧ parseInitSystem initPath ≠ ""))
      ∧ (∀ initPath, p.evalSymlink = Except.ok initPath →
          p.runtimeOs ≠ "windows" → p.runtimeOs ≠ "darwin" → parseInitSystem initPath ≠ "" →
          p.Execute.payload = Payload.str (parseInitSystem initPath)
          ∧ parseInitSystem initPath ∈ knownInitSystems) := by
  intro p
  by_cases hw : p.runtimeOs = "windows"
  · refine ⟨Or.inl (by simp [BaseEnvInitSystem.Execute, hw]), ⟨?_, ?_⟩, ?_⟩
    · intro hinfo
      exfalso
      simp [BaseEnvInitSystem.Execute, hw] at hinfo
    · rintro ⟨hne, _, _⟩
      exact absurd hw hne
    · intro ip hip h1 h2 h3
      exact absurd hw h1
  · by_cases hd : p.runtimeOs = "darwin"
    · refine ⟨Or.inl (by simp [BaseEnvInitSystem.Execute, hw, hd]), ⟨?_, ?_⟩, ?_⟩
      · intro hinfo
        exfalso
        simp [BaseEnvInitSystem.Execute, hw, hd] at hinfo
      · rintro ⟨_, hne, _⟩
        exact absurd hd hne
      · intro ip hip h1 h2 h3
        exact absurd hd h2
    · cases hev : p.evalSymlink with
      | error e =>
        have hst : p.Execute.status = Status.none_ := by
          simp [BaseEnvInitSystem.Execute, hw, hd, hev]
        refine ⟨Or.inl hst, ⟨?_, ?_⟩, ?_⟩
        · intro hinfo
          rw [hst] at hinfo
          exact absurd hinfo (by decide)
        · rintro ⟨_, _, ip, hip, _⟩
          exact absurd hip (by simp)
        · intro ip hip h1 h2 h3
          exact absurd hip (by simp)
      | ok ip =>
        by_cases hp : parseInitSystem ip = ""
        · have hst : p.Execute.status = Status.none_ := by
            simp [BaseEnvInitSystem.Execute, hw, hd, hev, hp]
          refine ⟨Or.inl hst, ⟨?_, ?_⟩, ?_⟩
          · intro hinfo
            rw [hst] at hinfo
            exact absurd hinfo (by decide)
          · rintro ⟨_, _, ip', hip', hp'⟩
            injection hip' with hipeq
            subst hipeq
            exact absurd hp hp'
          · intro ip' hip' h1 h2 h3
            injection hip' with hipeq
            subst hipeq
            exact absurd hp h3
        · have hexinfo : p.Execute =
              { status := .info, summary := parseInitSystem ip ++ " detected", url := "",
                payload := .str (parseInitSystem ip) } := by
            simp [BaseEnvInitSystem.Execute, hw, hd, hev, hp]
          refine ⟨Or.inr (by rw [hexinfo]), ⟨?_, ?_⟩, ?_⟩
          · intro _
            exact ⟨hw, hd, ip, rfl, hp⟩
          · intro _
            rw [hexinfo]
          · intro ip' hip' h1 h2 h3
            injection hip' with hipeq
            subst hipeq
            exact ⟨by rw [hexinfo], (parseInitSystem_cases ip).resolve_right hp⟩

/-- C8 witness: a Linux host resolving /sbin/init to systemd gets Status Info
with payload "Systemd". -/
theorem c8_initsystem_status_none_or_info_witness :
    (c8Task.evalSymlink = Except.ok "/lib/systemd/systemd"
      ∧ c8Task.runtimeOs ≠ "windows" ∧ c8Task.runtimeOs ≠ "darwin"
      ∧ parseInitSystem "/lib/systemd/systemd" ≠ "")
    ∧ (c8Task.Execute.payload = Payload.str (parseInitSystem "/lib/systemd/systemd")
      ∧ parseInitSystem "/lib/systemd/systemd" ∈ knownInitSystems) :=
  ⟨⟨rfl, by decide, by decide, by decide⟩,
   (c8_initsystem_status_none_or_info c8Task).2.2 "/lib/systemd/systemd" rfl
     (by decide) (by decide) (by decide)⟩

theorem string_pos_of_ne_empty (s : String) (h : s ≠ "") : 0 < s.length := by
  cases hs : s.data with
  | nil =>
    exfalso
    exact h (congrArg String.mk hs)
  | cons c t =>
    have hl : s.length = s.data.length := rfl
    rw [hl, hs]
    simp

/-- C9: when the CollectEnvVars upstream result is Info and carries a
non-empty NEW_RELIC_APP_NAME, BaseConfigAppName.Execute returns Success with
exactly that single-element payload, and the outcome ignores every other
upstream entry (system properties and config files are never consulted). -/
theorem c9_appname_env_var_early_exit :
    ∀ (upstream : String → Result) (kvs : List (String × String)) (appname : String),
      (upstream "Base/Env/CollectEnvVars").status = Status.info →
      (upstream "Base/Env/CollectEnvVars").payload = Payload.envVars kvs →
      List.lookup appNameEnvVarKey kvs = some appname →
      appname ≠ "" →
      BaseConfigAppName.Execute upstream =
        { status := .success,
          summary := "A unique application name was found through the New Relic App name environment variable: "
            ++ appname,
          url := "",
          payload := .appNameInfos [{ name := appname, filePath := appNameEnvVarKey }] }
      ∧ ∀ upstream' : String → Result,
          upstream' "Base/Env/CollectEnvVars" = upstream "Base/Env/CollectEnvVars" →
          BaseConfigAppName.Execute upstream' = BaseConfigAppName.Execute upstream := by
  intro up kvs appname hst hpl hlk hne
  have hpos : 0 < appname.length := string_pos_of_ne_empty appname hne
  have henv : getAppNameFromEnvVar up = { name := appname, filePath := appNameEnvVarKey } := by
    simp [getAppNameFromEnvVar, hst, hpl, hlk]
  have hmain : BaseConfigAppName.Execute up =
      { status := .success,
        summary := "A unique application name was found through the New Relic App name environment variable: "
          ++ appname,
        url := "",
        payload := .appNameInfos [{ name := appname, filePath := appNameEnvVarKey }] } := by
    simp only [BaseConfigAppName.Execute, henv]
    rw [if_pos hpos]
  refine ⟨hmain, ?_⟩
  intro up' hagree
  have henv' : getAppNameFromEnvVar up' = { name := appname, filePath := appNameEnvVarKey } := by
    simp [getAppNameFromEnvVar, hagree, hst, hpl, hlk]
  have hmain' : BaseConfigAppName.Execute up' =
      { status := .success,
        summary := "A unique application name was found through the New Relic App name environment variable: "
          ++ appname,
        url := "",
        payload := .appNameInfos [{ name := appname, filePath := appNameEnvVarKey }] } := by
    simp only [BaseConfigAppName.Execute, henv']
    rw [if_pos hpos]
  rw [hmain, hmain']

/-- C9 witness: a concrete upstream map with NEW_RELIC_APP_NAME set to
"MyApp". -/
theorem c9_appname_env_var_early_exit_witness :
    ((c9Upstream "Base/Env/CollectEnvVars").status = Status.info
      ∧ (c9Upstream "Base/Env/CollectEnvVars").payload
          = Payload.envVars [("NEW_RELIC_APP_NAME", "MyApp")]
      ∧ List.lookup appNameEnvVarKey [("NEW_RELIC_APP_NAME", "MyApp")] = some "MyApp"
      ∧ "MyApp" ≠ "")
    ∧ (BaseConfigAppName.Execute c9Upstream =
        { status := .success,
          summary := "A unique application name was found through the New Relic App name environment variable: "
            ++ "MyApp",
          url := "",
          payload := .appNameInfos [{ name := "MyApp", filePath := appNameEnvVarKey }] }
      ∧ ∀ upstream' : String → Result,
          upstream' "Base/Env/CollectEnvVars" = c9Upstream "Base/Env/CollectEnvVars" →
          BaseConfigAppName.Execute upstream' = BaseConfigAppName.Execute c9Upstream) :=
  ⟨⟨rfl, rfl, by decide, by decide⟩,
   c9_appname_env_var_early_exit c9Upstream [("NEW_RELIC_APP_NAME", "MyApp")] "MyApp"
     rfl rfl (by decide) (by decide)⟩

/-- C10: when the DotNet/Agent/Installed upstream result is not Success,
DotNetConfigAgent.Execute returns Status None with a summary distinguishing
no-agent-detected from upstream failure, and neither the raw-file check nor
any other upstream entry (in particular the Base/Config/Validate payload)
influences the outcome. -/
theorem c10_dotnet_upstream_not_success_none :
    ∀ (rawFileHasConfig : String → Bool) (upstream : String → Result),
      (upstream "DotNet/Agent/Installed").status ≠ Status.success →
      (DotNetConfigAgent.Execute rawFileHasConfig upstream).status = Status.none_
      ∧ (DotNetConfigAgent.Execute rawFileHasConfig upstream).summary =
          (if (upstream "DotNet/Agent/Installed").summary = NoAgentDetectedSummary
            then NoAgentUpstreamSummary ++ "DotNet/Agent/Installed"
            else UpstreamFailedSummary ++ "DotNet/Agent/Installed")
      ∧ (DotNetConfigAgent.Execute rawFileHasConfig upstream).payload = Payload.none_
      ∧ ∀ (rawFileHasConfig' : String → Bool) (upstream' : String → Result),
          upstream' "DotNet/Agent/Installed" = upstream "DotNet/Agent/Installed" →
          DotNetConfigAgent.Execute rawFileHasConfig' upstream'
            = DotNetConfigAgent.Execute rawFileHasConfig upstream := by
  intro raw up h
  have hx : ∀ (raw2 : String → Bool) (up2 : String → Result),
      up2 "DotNet/Agent/Installed" = up "DotNet/Agent/Installed" →
      DotNetConfigAgent.Execute raw2 up2 =
        (if (up "DotNet/Agent/Installed").summary = NoAgentDetectedSummary
          then { status := .none_, summary := NoAgentUpstreamSummary ++ "DotNet/Agent/Installed",
                 url := "", payload := .none_ }
          else { status := .none_, summary := UpstreamFailedSummary ++ "DotNet/Agent/Installed",
                 url := "", payload := .none_ }) := by
    intro raw2 up2 hag
    unfold DotNetConfigAgent.Execute
    rw [hag, if_pos h]
  have hmain := hx raw up rfl
  refine ⟨?_, ?_, ?_, ?_⟩
  · rw [hmain]
    split <;> rfl
  · rw [hmain]
    split <;> rfl
  · rw [hmain]
    split <;> rfl
  · intro raw' up' hag
    rw [hx raw' up' hag, hmain]

/-- C10 witness: a failed DotNet/Agent/Installed upstream result. -/
theorem c10_dotnet_upstream_not_success_none_witness :
    (c10Upstream "DotNet/Agent/Installed").status ≠ Status.success
    ∧ ((DotNetConfigAgent.Execute (fun _ => false) c10Upstream).status = Status.none_
      ∧ (DotNetConfigAgent.Execute (fun _ => false) c10Upstream).summary =
          (if (c10Upstream "DotNet/Agent/Installed").summary = NoAgentDetectedSummary
            then NoAgentUpstreamSummary ++ "DotNet/Agent/Installed"
            else UpstreamFailedSummary ++ "DotNet/Agent/Installed")
      ∧ (DotNetConfigAgent.Execute (fun _ => false) c10Upstream).payload = Payload.none_
      ∧ ∀ (rawFileHasConfig' : String → Bool) (upstream' : String → Result),
          upstream' "DotNet/Agent/Installed" = c10Upstream "DotNet/Agent/Installed" →
          DotNetConfigAgent.Execute rawFileHasConfig' upstream'
            = DotNetConfigAgent.Execute (fun _ => false) c10Upstream) :=
  ⟨by decide, c10_dotnet_upstream_not_success_none (fun _ => false) c10Upstream (by decide)⟩

end NrDiag
